import Mathlib

/-!
Verification of the esp-rgb-led-matrix web/task-decoupling subsystem.

Shallow embedding of:
* `TaskDecoupler` (src/src/Web/TaskDecoupler.hpp): a bounded FIFO queue on
  top of a FreeRTOS queue handle.  The handle is modelled as
  `Option (capacity × pending items)`; `xQueueSend`/`xQueueReceive` with a
  bounded timeout are modelled as total functions that report failure when
  the queue is full resp. empty (the timeout expiring without the condition
  clearing), and `xQueueCreate` allocation success is an explicit parameter.
* The deferred web request variants (src/src/Web/WebReq.hpp) over an
  explicit heap of byte buffers, so that aliasing and deep-copy claims are
  meaningful.
* `BitmapWidget` (src/lib/Gfx/BitmapWidget.h) over the same heap model.
* The request enqueue paths of src/src/Web/Pages.cpp and the captive portal
  (CaptivePortal.cpp), with allocation, authentication and queue effects
  made explicit.
* `isValidHostname` and `storeSetting` of src/src/Web/Pages.cpp.
-/

namespace LedMatrix

/-- State of `TaskDecoupler<T>` (TaskDecoupler.hpp).  `m_hQueue` is `none`
when the OS queue handle is `nullptr`; otherwise it carries the fixed
capacity given to `xQueueCreate` and the pending items, oldest first. -/
structure TaskDecoupler (T : Type) where
  hQueue : Option (Nat × List T)
deriving DecidableEq, Repr

namespace TaskDecoupler

/-- `WAIT_TIME` (TaskDecoupler.hpp line 151): the maximum block time in
ticks for `xQueueSend` / `xQueueReceive`. -/
def WAIT_TIME : Nat := 100

/-- `TaskDecoupler::destroyQueue`: deletes the queue (and with it any
unconsumed items) and resets the handle to `nullptr`. -/
def destroyQueue {T : Type} (_ : TaskDecoupler T) : TaskDecoupler T :=
  ⟨none⟩

/-- `TaskDecoupler::createQueue`: creates the OS queue only when no handle
exists; `allocOk` models whether `xQueueCreate` succeeds.  Returns the new
state and `(nullptr != m_hQueue)`. -/
def createQueue {T : Type} (d : TaskDecoupler T) (maxItems : Nat)
    (allocOk : Bool) : TaskDecoupler T × Bool :=
  match d.hQueue with
  | some q => (⟨some q⟩, true)
  | none =>
    if allocOk then
      (⟨some (maxItems, [])⟩, true)
    else
      (⟨none⟩, false)

/-- `TaskDecoupler::init`: destroys any existing queue, then creates a new
one. -/
def init {T : Type} (d : TaskDecoupler T) (maxItems : Nat)
    (allocOk : Bool) : TaskDecoupler T × Bool :=
  createQueue (destroyQueue d) maxItems allocOk

/-- `TaskDecoupler::addItem`: fails on a `nullptr` handle; `xQueueSend`
with bounded timeout succeeds exactly when space is available, i.e. fewer
than `capacity` items are pending; on success the item is appended at the
back. -/
def addItem {T : Type} (d : TaskDecoupler T) (item : T) :
    TaskDecoupler T × Bool :=
  match d.hQueue with
  | none => (⟨none⟩, false)
  | some (cap, items) =>
    if items.length < cap then
      (⟨some (cap, items ++ [item])⟩, true)
    else
      (⟨some (cap, items)⟩, false)

/-- `TaskDecoupler::getItem`: fails on a `nullptr` handle; `xQueueReceive`
with bounded timeout succeeds exactly when an item is pending; on success
the oldest item is removed and returned. -/
def getItem {T : Type} (d : TaskDecoupler T) :
    TaskDecoupler T × Bool × Option T :=
  match d.hQueue with
  | none => (⟨none⟩, false, none)
  | some (cap, []) => (⟨some (cap, [])⟩, false, none)
  | some (cap, x :: xs) => (⟨some (cap, xs)⟩, true, some x)

end TaskDecoupler

/-- One producer/consumer step against a `TaskDecoupler`. -/
inductive QueueOp (T : Type) where
  | add (t : T)
  | get
deriving DecidableEq, Repr

/-- Result of running a sequence of queue operations: final state, the
items whose `addItem` returned `true` (in submission order), and the items
returned by successful `getItem` calls (in delivery order). -/
structure QueueRun (T : Type) where
  state : TaskDecoupler T
  added : List T
  delivered : List T
deriving DecidableEq, Repr

/-- Run a sequence of `addItem`/`getItem` operations, recording the
successfully added and the delivered items. -/
def runOps {T : Type} (d : TaskDecoupler T) :
    List (QueueOp T) → QueueRun T
  | [] => ⟨d, [], []⟩
  | QueueOp.add t :: rest =>
    match d.addItem t with
    | (d2, true) =>
      let r := runOps d2 rest
      ⟨r.state, t :: r.added, r.delivered⟩
    | (d2, false) => runOps d2 rest
  | QueueOp.get :: rest =>
    match d.getItem with
    | (d2, _, some x) =>
      let r := runOps d2 rest
      ⟨r.state, r.added, x :: r.delivered⟩
    | (d2, _, none) => runOps d2 rest

/-- Unfolding `runOps` over a successful `addItem`. -/
theorem runOps_add_ok {T : Type} (cap : Nat) (pending : List T) (t : T)
    (rest : List (QueueOp T)) (h : pending.length < cap) :
    runOps (⟨some (cap, pending)⟩ : TaskDecoupler T) (QueueOp.add t :: rest) =
      ⟨(runOps ⟨some (cap, pending ++ [t])⟩ rest).state,
       t :: (runOps ⟨some (cap, pending ++ [t])⟩ rest).added,
       (runOps ⟨some (cap, pending ++ [t])⟩ rest).delivered⟩ := by
  simp [runOps, TaskDecoupler.addItem, h]

/-- Unfolding `runOps` over a failing `addItem` on a full queue. -/
theorem runOps_add_fail {T : Type} (cap : Nat) (pending : List T) (t : T)
    (rest : List (QueueOp T)) (h : ¬ pending.length < cap) :
    runOps (⟨some (cap, pending)⟩ : TaskDecoupler T) (QueueOp.add t :: rest) =
      runOps ⟨some (cap, pending)⟩ rest := by
  simp [runOps, TaskDecoupler.addItem, h]

/-- Unfolding `runOps` over a `getItem` on an empty queue. -/
theorem runOps_get_empty {T : Type} (cap : Nat) (rest : List (QueueOp T)) :
    runOps (⟨some (cap, [])⟩ : TaskDecoupler T) (QueueOp.get :: rest) =
      runOps ⟨some (cap, [])⟩ rest := by
  simp [runOps, TaskDecoupler.getItem]

/-- Unfolding `runOps` over a successful `getItem`. -/
theorem runOps_get_ok {T : Type} (cap : Nat) (y : T) (ys : List T)
    (rest : List (QueueOp T)) :
    runOps (⟨some (cap, y :: ys)⟩ : TaskDecoupler T) (QueueOp.get :: rest) =
      ⟨(runOps ⟨some (cap, ys)⟩ rest).state,
       (runOps ⟨some (cap, ys)⟩ rest).added,
       y :: (runOps ⟨some (cap, ys)⟩ rest).delivered⟩ := by
  simp [runOps, TaskDecoupler.getItem]

/-- Key invariant of `runOps`: starting from an initialized queue with
`pending` items, the prior pending items followed by the successfully
added items equal the delivered items followed by the items still
pending at the end, and the capacity never changes. -/
theorem runOps_fifo {T : Type} :
    ∀ (ops : List (QueueOp T)) (cap : Nat) (pending : List T),
    ∃ rest, (runOps ⟨some (cap, pending)⟩ ops).state = ⟨some (cap, rest)⟩ ∧
      pending ++ (runOps ⟨some (cap, pending)⟩ ops).added =
        (runOps ⟨some (cap, pending)⟩ ops).delivered ++ rest := by
  intro ops
  induction ops with
  | nil =>
    intro cap pending
    refine ⟨pending, rfl, ?_⟩
    show pending ++ [] = [] ++ pending
    simp
  | cons op rest ih =>
    intro cap pending
    cases op with
    | add t =>
      by_cases h : pending.length < cap
      · obtain ⟨r, hs, he⟩ := ih cap (pending ++ [t])
        refine ⟨r, ?_, ?_⟩
        · rw [runOps_add_ok cap pending t rest h]
          exact hs
        · rw [runOps_add_ok cap pending t rest h]
          simpa using he
      · obtain ⟨r, hs, he⟩ := ih cap pending
        refine ⟨r, ?_, ?_⟩
        · rw [runOps_add_fail cap pending t rest h]
          exact hs
        · rw [runOps_add_fail cap pending t rest h]
          exact he
    | get =>
      cases pending with
      | nil =>
        obtain ⟨r, hs, he⟩ := ih cap []
        refine ⟨r, ?_, ?_⟩
        · rw [runOps_get_empty cap rest]
          exact hs
        · rw [runOps_get_empty cap rest]
          exact he
      | cons y ys =>
        obtain ⟨r, hs, he⟩ := ih cap ys
        refine ⟨r, ?_, ?_⟩
        · rw [runOps_get_ok cap y ys rest]
          exact hs
        · rw [runOps_get_ok cap y ys rest]
          simpa using he

/-- A failing `addItem` never changes the queue state. -/
theorem addItem_fail_unchanged {T : Type} (d : TaskDecoupler T) (t : T) :
    (d.addItem t).2 = false → (d.addItem t).1 = d := by
  obtain ⟨hq⟩ := d
  cases hq with
  | none => intro _; rfl
  | some q =>
    obtain ⟨cap, items⟩ := q
    intro h
    simp only [TaskDecoupler.addItem] at h ⊢
    by_cases hlt : items.length < cap
    · simp [hlt] at h
    · simp [hlt]

/-- Claim C1: for every queue initialized with capacity `cap` and every
sequence of `addItem`/`getItem` operations, the successfully added items
equal the delivered items followed by the still-pending ones — delivery is
strict FIFO — and an `addItem` that fails (in particular because `cap`
items are already pending) leaves the queue contents and order unchanged. -/
theorem C1_taskDecoupler_fifo {T : Type} (d : TaskDecoupler T) (cap : Nat)
    (ops : List (QueueOp T)) (e : TaskDecoupler T) (t : T) :
    (∃ rest,
      (runOps (d.init cap true).1 ops).added =
        (runOps (d.init cap true).1 ops).delivered ++ rest) ∧
    ((e.addItem t).2 = false → (e.addItem t).1 = e) := by
  constructor
  · have hinit : (d.init cap true).1 = ⟨some (cap, [])⟩ := rfl
    rw [hinit]
    obtain ⟨r, _, he⟩ := runOps_fifo ops cap []
    exact ⟨r, by simpa using he⟩
  · exact addItem_fail_unchanged e t

/-- Witness for C1 at a concrete run: capacity 2, add 10, add 20, a third
add fails, then the two items are delivered in order; a failing add on the
full queue leaves it unchanged. -/
theorem C1_taskDecoupler_fifo_witness :
    (∃ rest,
      (runOps ((⟨none⟩ : TaskDecoupler Nat).init 2 true).1
        [QueueOp.add 10, QueueOp.add 20, QueueOp.add 30,
         QueueOp.get, QueueOp.get]).added =
        (runOps ((⟨none⟩ : TaskDecoupler Nat).init 2 true).1
          [QueueOp.add 10, QueueOp.add 20, QueueOp.add 30,
           QueueOp.get, QueueOp.get]).delivered ++ rest) ∧
    ((⟨some (2, [10, 20])⟩ : TaskDecoupler Nat).addItem 30).2 = false ∧
    ((⟨some (2, [10, 20])⟩ : TaskDecoupler Nat).addItem 30).1 =
      ⟨some (2, [10, 20])⟩ :=
  ⟨(C1_taskDecoupler_fifo ⟨none⟩ 2
      [QueueOp.add 10, QueueOp.add 20, QueueOp.add 30,
       QueueOp.get, QueueOp.get] ⟨some (2, [10, 20])⟩ 30).1,
   by decide,
   (C1_taskDecoupler_fifo ⟨none⟩ 2
      [QueueOp.add 10, QueueOp.add 20, QueueOp.add 30,
       QueueOp.get, QueueOp.get] ⟨some (2, [10, 20])⟩ 30).2 (by decide)⟩

/-- Claim C2: `addItem` on a full queue and `getItem` on an empty queue
return `false` after the bounded wait (`WAIT_TIME` ticks, modelled as the
operation returning rather than blocking); both return `false` on a
never-initialized queue; and after such a failure the queue remains usable
(a blocked consumer can still drain a full queue, a producer can still
fill an empty one). -/
theorem C2_taskDecoupler_bounded {T : Type} (cap : Nat) (items : List T)
    (x y : T) (ys : List T) :
    TaskDecoupler.WAIT_TIME = 100 ∧
    ((⟨none⟩ : TaskDecoupler T).addItem x = (⟨none⟩, false)) ∧
    ((⟨none⟩ : TaskDecoupler T).getItem = (⟨none⟩, false, none)) ∧
    (items.length = cap →
      (⟨some (cap, items)⟩ : TaskDecoupler T).addItem x =
        (⟨some (cap, items)⟩, false)) ∧
    ((⟨some (cap, [])⟩ : TaskDecoupler T).getItem =
      (⟨some (cap, [])⟩, false, none)) ∧
    (items = y :: ys →
      (⟨some (cap, items)⟩ : TaskDecoupler T).getItem =
        (⟨some (cap, ys)⟩, true, some y)) ∧
    (0 < cap →
      (⟨some (cap, ([] : List T))⟩ : TaskDecoupler T).addItem x =
        (⟨some (cap, [x])⟩, true)) := by
  refine ⟨rfl, rfl, rfl, ?_, rfl, ?_, ?_⟩
  · intro h
    simp [TaskDecoupler.addItem, h]
  · intro h
    subst h
    rfl
  · intro h
    simp [TaskDecoupler.addItem, h]

/-- Witness for C2 at capacity 1 with concrete items. -/
theorem C2_taskDecoupler_bounded_witness :
    TaskDecoupler.WAIT_TIME = 100 ∧
    ((⟨none⟩ : TaskDecoupler Nat).addItem 7 = (⟨none⟩, false)) ∧
    ((⟨none⟩ : TaskDecoupler Nat).getItem = (⟨none⟩, false, none)) ∧
    ((⟨some (1, [5])⟩ : TaskDecoupler Nat).addItem 7 =
      (⟨some (1, [5])⟩, false)) ∧
    ((⟨some (1, [])⟩ : TaskDecoupler Nat).getItem =
      (⟨some (1, [])⟩, false, none)) ∧
    ((⟨some (1, [5])⟩ : TaskDecoupler Nat).getItem =
      (⟨some (1, [])⟩, true, some 5)) ∧
    ((⟨some (1, ([] : List Nat))⟩ : TaskDecoupler Nat).addItem 7 =
      (⟨some (1, [7])⟩, true)) :=
  have h := C2_taskDecoupler_bounded 1 [5] 7 5 []
  ⟨h.1, h.2.1, h.2.2.1, h.2.2.2.1 (by decide), h.2.2.2.2.1,
   h.2.2.2.2.2.1 rfl, h.2.2.2.2.2.2 (by decide)⟩

/-- Claim C8: `init` destroys any previously existing queue together with
its unconsumed items and creates a new fixed-capacity queue; it returns
`true` exactly when the new queue was created, and after a successful
`init` the capacity is the given one (and the queue is empty), regardless
of the prior state. -/
theorem C8_taskDecoupler_init {T : Type} (d : TaskDecoupler T) (cap : Nat) :
    d.init cap true = (⟨some (cap, [])⟩, true) ∧
    d.init cap false = (⟨none⟩, false) :=
  ⟨rfl, rfl⟩

/-! ## Heap model for ownership and deep-copy claims

C++ raw buffers are modelled as addresses into an explicit heap, so that
aliasing, deep copies and post-construction mutation are observable. -/

/-- A heap mapping addresses to byte/pixel buffer contents. -/
def Heap := Nat → List Nat

/-- Overwrite the buffer at address `a`. -/
def hwrite (h : Heap) (a : Nat) (bs : List Nat) : Heap :=
  fun x => if x = a then bs else h x

theorem hwrite_same (h : Heap) (a : Nat) (bs : List Nat) :
    hwrite h a bs a = bs := by
  simp [hwrite]

theorem hwrite_other (h : Heap) (a b : Nat) (bs : List Nat) (hab : b ≠ a) :
    hwrite h a bs b = h b := by
  simp [hwrite, hab]

/-- `WebUploadReq` (WebReq.hpp lines 222-362): a deferred upload-chunk
request.  `m_filename`, `m_index` and `m_final` are stored by value;
`m_data` is an owned buffer address or `none` (`nullptr`). -/
structure WebUploadReq where
  hasHandler : Bool
  filename : List Char
  index : Nat
  dataAddr : Option Nat
  len : Nat
  isFinal : Bool
deriving DecidableEq, Repr

/-- `WebUploadReq::copy(src, size)`: allocates a fresh `size`-byte buffer
and memcpy's `size` bytes from the source buffer into it; on a null source
or failed allocation `m_data` stays `nullptr` and `m_len` stays 0. -/
def WebUploadReq.copyData (h : Heap) (fresh : Nat) (src : Option Nat)
    (size : Nat) (allocOk : Bool) : (Option Nat × Nat) × Heap :=
  match src with
  | none => ((none, 0), h)
  | some a =>
    if allocOk then
      ((some fresh, size), hwrite h fresh ((h a).take size))
    else
      ((none, 0), h)

/-- The `WebUploadReq` constructor (WebReq.hpp lines 237-247): stores the
handler, filename, index and final flag, then deep-copies the payload via
`copy(data, len)`.  `fresh` is the address handed out by `new`. -/
def WebUploadReq.construct (h : Heap) (fresh : Nat) (hasHandler : Bool)
    (filename : List Char) (index : Nat) (src : Option Nat) (len : Nat)
    (isFinal : Bool) (allocOk : Bool) : WebUploadReq × Heap :=
  let c := WebUploadReq.copyData h fresh src len allocOk
  (⟨hasHandler, filename, index, c.1.1, c.1.2, isFinal⟩, c.2)

/-- Argument tuple the upload handler receives from `call()`. -/
structure UploadArgs where
  filename : List Char
  index : Nat
  data : List Nat
  len : Nat
  isFinal : Bool
deriving DecidableEq, Repr

/-- `WebUploadReq::call()`: invokes the handler (when non-null) with the
stored filename, index, owned payload bytes and final flag.  The handler
reads `m_len` bytes from `m_data`. -/
def WebUploadReq.call (h : Heap) (r : WebUploadReq) : Option UploadArgs :=
  if r.hasHandler then
    some ⟨r.filename, r.index,
      (match r.dataAddr with
       | some a => (h a).take r.len
       | none => []),
      r.len, r.isFinal⟩
  else
    none

/-- `WebWsReq` (WebReq.hpp lines 367-509): a deferred websocket request.
Server and client connection identities are stored by value; the message
bytes are deep-copied into an owned buffer. -/
structure WebWsReq where
  hasHandler : Bool
  server : Nat
  client : Nat
  dataAddr : Option Nat
  len : Nat
deriving DecidableEq, Repr

/-- The `WebWsReq` constructor (WebReq.hpp lines 389-398): stores server
and client identity and deep-copies the message via `copy(data, len)`
(WebReq.hpp lines 495-508, byte-identical to the upload variant). -/
def WebWsReq.construct (h : Heap) (fresh : Nat) (hasHandler : Bool)
    (server client : Nat) (src : Option Nat) (len : Nat)
    (allocOk : Bool) : WebWsReq × Heap :=
  let c := WebUploadReq.copyData h fresh src len allocOk
  (⟨hasHandler, server, client, c.1.1, c.1.2⟩, c.2)

/-- Argument tuple the websocket handler receives from `call()`. -/
structure WsArgs where
  server : Nat
  client : Nat
  data : List Nat
  len : Nat
deriving DecidableEq, Repr

/-- `WebWsReq::call()` (WebReq.hpp lines 458-464). -/
def WebWsReq.call (h : Heap) (r : WebWsReq) : Option WsArgs :=
  if r.hasHandler then
    some ⟨r.server, r.client,
      (match r.dataAddr with
       | some a => (h a).take r.len
       | none => []),
      r.len⟩
  else
    none

/-- Claim C4: constructing an upload-chunk or websocket deferred request
deep-copies the payload bytes (plus filename, offset and final flag for
uploads) into request-owned memory, so after any mutation of the
producer's source buffer, `call()` hands the handler exactly the bytes
that were present at construction time. -/
theorem C4_deferred_request_deep_copy (h : Heap) (fresh a : Nat)
    (filename : List Char) (index len : Nat) (isFinal : Bool)
    (server client : Nat) (mutated : List Nat)
    (hfresh : fresh ≠ a) (hlen : len ≤ (h a).length) :
    (WebUploadReq.call
        (hwrite (WebUploadReq.construct h fresh true filename index
          (some a) len isFinal true).2 a mutated)
        (WebUploadReq.construct h fresh true filename index
          (some a) len isFinal true).1 =
      some ⟨filename, index, (h a).take len, len, isFinal⟩) ∧
    (WebWsReq.call
        (hwrite (WebWsReq.construct h fresh true server client
          (some a) len true).2 a mutated)
        (WebWsReq.construct h fresh true server client
          (some a) len true).1 =
      some ⟨server, client, (h a).take len, len⟩) := by
  have hread :
      hwrite (hwrite h fresh ((h a).take len)) a mutated fresh =
        (h a).take len := by
    rw [hwrite_other _ _ _ _ hfresh, hwrite_same]
  have htake : ((h a).take len).take len = (h a).take len := by
    simp
  constructor
  · simp only [WebUploadReq.construct, WebUploadReq.copyData, if_pos,
      WebUploadReq.call, if_true]
    rw [hread, htake]
  · simp only [WebWsReq.construct, WebUploadReq.copyData, if_pos,
      WebWsReq.call, if_true]
    rw [hread, htake]

/-- Witness for C4: a 3-byte payload at address 0 is copied to address 1;
overwriting the producer buffer afterwards does not change what the
handler receives. -/
theorem C4_deferred_request_deep_copy_witness :
    (1 : Nat) ≠ 0 ∧ (3 : Nat) ≤ 3 ∧
    (WebUploadReq.call
        (hwrite (WebUploadReq.construct (fun _ => [7, 8, 9]) 1 true
          [] 0 (some 0) 3 true true).2 0 [0, 0, 0])
        (WebUploadReq.construct (fun _ => [7, 8, 9]) 1 true
          [] 0 (some 0) 3 true true).1 =
      some ⟨[], 0, [7, 8, 9], 3, true⟩) ∧
    (WebWsReq.call
        (hwrite (WebWsReq.construct (fun _ => [7, 8, 9]) 1 true
          4 5 (some 0) 3 true).2 0 [0, 0, 0])
        (WebWsReq.construct (fun _ => [7, 8, 9]) 1 true
          4 5 (some 0) 3 true).1 =
      some ⟨4, 5, [7, 8, 9], 3⟩) := by
  have h := C4_deferred_request_deep_copy (fun _ => [7, 8, 9]) 1 0
    [] 0 3 true 4 5 [0, 0, 0] (by decide) (by decide)
  exact ⟨by decide, by decide, h.1, h.2⟩

/-! ## BitmapWidget (src/lib/Gfx/BitmapWidget.h) -/

/-- `BitmapWidget` fields: `m_buffer` (owned pixel buffer address or
`nullptr`), `m_bufferSize` (number of `Color` elements), `m_width`,
`m_height`. -/
structure BitmapWidget where
  bufAddr : Option Nat
  bufferSize : Nat
  width : Nat
  height : Nat
deriving DecidableEq, Repr

namespace BitmapWidget

/-- The default constructor (BitmapWidget.h lines 71-78): empty widget. -/
def empty : BitmapWidget :=
  ⟨none, 0, 0, 0⟩

/-- The copy constructor (BitmapWidget.h lines 85-110): copies size, width
and height, then — when the source buffer is non-null — allocates a fresh
buffer and copies `m_bufferSize` elements; if the allocation fails the
buffer stays null and `m_bufferSize` is reset to 0 (width and height keep
the copied values). -/
def copyCtor (h : Heap) (w : BitmapWidget) (fresh : Nat)
    (allocOk : Bool) : BitmapWidget × Heap :=
  match w.bufAddr with
  | none => (⟨none, w.bufferSize, w.width, w.height⟩, h)
  | some a =>
    if allocOk then
      (⟨some fresh, w.bufferSize, w.width, w.height⟩,
        hwrite h fresh ((h a).take w.bufferSize))
    else
      (⟨none, 0, w.width, w.height⟩, h)

/-- One drawing primitive issued to the graphics interface. -/
inductive DrawOp where
  | drawRGBBitmap (width height : Nat) (pixels : List Nat)
deriving DecidableEq, Repr

/-- `BitmapWidget::update` (BitmapWidget.h lines 137-145): draws the
bitmap only when the buffer is non-null, otherwise draws nothing. -/
def update (h : Heap) (w : BitmapWidget) : List DrawOp :=
  match w.bufAddr with
  | none => []
  | some a => [DrawOp.drawRGBBitmap w.width w.height ((h a).take w.bufferSize)]

/-- Mutate one pixel of the widget-owned buffer (the producer-side view of
"mutating the copy's pixel data"). -/
def writePixel (h : Heap) (w : BitmapWidget) (i v : Nat) : Heap :=
  match w.bufAddr with
  | none => h
  | some a => hwrite h a ((h a).set i v)

/-- Modelled from the spec: `BitmapWidget::set` is declared in
src/lib/Gfx/BitmapWidget.h (line 154) but its body lives in
BitmapWidget.cpp, which is not among the sources.  Spec 4.1:
"`set(buffer, w, h)` atomically replaces the buffer (old freed, and on
allocation failure the widget reverts to empty rather than partially
mutating)". -/
def set (h : Heap) (_ : BitmapWidget) (src : Option Nat)
    (width height : Nat) (fresh : Nat) (allocOk : Bool) :
    BitmapWidget × Heap :=
  match src with
  | none => (⟨none, 0, 0, 0⟩, h)
  | some a =>
    if allocOk then
      (⟨some fresh, width * height, width, height⟩,
        hwrite h fresh ((h a).take (width * height)))
    else
      (⟨none, 0, 0, 0⟩, h)

/-- Modelled from the spec: `BitmapWidget::operator=` is declared in
src/lib/Gfx/BitmapWidget.h (line 130) but its body lives in
BitmapWidget.cpp, absent from the sources.  Spec 4.1: "copy/assign perform
a deep buffer copy (exclusive ownership per instance)" with the same
allocation-failure behaviour as copying; the assigned-to widget's old
buffer is freed and replaced by a deep copy of the source. -/
def assign (h : Heap) (_ : BitmapWidget) (src : BitmapWidget)
    (fresh : Nat) (allocOk : Bool) : BitmapWidget × Heap :=
  copyCtor h src fresh allocOk

/-- A widget never exposes a positive buffer size without a buffer. -/
def wellFormed (w : BitmapWidget) : Prop :=
  w.bufferSize ≠ 0 → w.bufAddr ≠ none

end BitmapWidget

/-- Claim C9: copy construction of a bitmap widget with a non-empty buffer
yields equal pixel contents, width and height in an independent fresh
buffer: mutating the copy's pixels leaves the original's pixel data
unchanged and vice versa. -/
theorem C9_bitmapWidget_copy_independent (h : Heap) (orig : BitmapWidget)
    (a fresh i v : Nat) (ha : orig.bufAddr = some a) (hfresh : fresh ≠ a)
    (hlen : (h a).length = orig.bufferSize) :
    (BitmapWidget.copyCtor h orig fresh true).1.bufAddr = some fresh ∧
    (BitmapWidget.copyCtor h orig fresh true).1.width = orig.width ∧
    (BitmapWidget.copyCtor h orig fresh true).1.height = orig.height ∧
    (BitmapWidget.copyCtor h orig fresh true).1.bufferSize =
      orig.bufferSize ∧
    (BitmapWidget.copyCtor h orig fresh true).2 fresh = h a ∧
    (BitmapWidget.copyCtor h orig fresh true).2 a = h a ∧
    BitmapWidget.writePixel (BitmapWidget.copyCtor h orig fresh true).2
      (BitmapWidget.copyCtor h orig fresh true).1 i v a = h a ∧
    BitmapWidget.writePixel (BitmapWidget.copyCtor h orig fresh true).2
      orig i v fresh = h a := by
  have hcopy : BitmapWidget.copyCtor h orig fresh true =
      (⟨some fresh, orig.bufferSize, orig.width, orig.height⟩,
        hwrite h fresh ((h a).take orig.bufferSize)) := by
    simp [BitmapWidget.copyCtor, ha]
  have htake : (h a).take orig.bufferSize = h a := by
    rw [← hlen]
    exact List.take_length _
  rw [hcopy]
  dsimp only
  refine ⟨rfl, rfl, rfl, rfl, ?_, ?_, ?_, ?_⟩
  · rw [hwrite_same, htake]
  · rw [hwrite_other _ _ _ _ (Ne.symm hfresh)]
  · simp only [BitmapWidget.writePixel]
    rw [hwrite_other _ _ _ _ (Ne.symm hfresh),
      hwrite_other _ _ _ _ (Ne.symm hfresh)]
  · simp only [BitmapWidget.writePixel, ha]
    rw [hwrite_other _ _ _ _ hfresh, hwrite_same, htake]

/-- Witness for C9: a 2x1 widget with pixels `[3, 4]` at address 0 copied
to fresh address 1; each side's pixel writes leave the other side's
contents `[3, 4]`. -/
theorem C9_bitmapWidget_copy_independent_witness :
    ((⟨some 0, 2, 2, 1⟩ : BitmapWidget).bufAddr = some 0) ∧
    (BitmapWidget.copyCtor (fun _ => [3, 4]) ⟨some 0, 2, 2, 1⟩ 1
      true).1.bufAddr = some 1 ∧
    (BitmapWidget.copyCtor (fun _ => [3, 4]) ⟨some 0, 2, 2, 1⟩ 1
      true).2 1 = [3, 4] ∧
    BitmapWidget.writePixel
      (BitmapWidget.copyCtor (fun _ => [3, 4]) ⟨some 0, 2, 2, 1⟩ 1 true).2
      (BitmapWidget.copyCtor (fun _ => [3, 4]) ⟨some 0, 2, 2, 1⟩ 1 true).1
      0 9 0 = [3, 4] ∧
    BitmapWidget.writePixel
      (BitmapWidget.copyCtor (fun _ => [3, 4]) ⟨some 0, 2, 2, 1⟩ 1 true).2
      ⟨some 0, 2, 2, 1⟩ 0 9 1 = [3, 4] := by
  have h := C9_bitmapWidget_copy_independent (fun _ => [3, 4])
    ⟨some 0, 2, 2, 1⟩ 0 1 0 9 rfl (by decide) (by decide)
  exact ⟨rfl, h.1, h.2.2.2.2.1, h.2.2.2.2.2.2.1, h.2.2.2.2.2.2.2⟩

/-- Claim C5: on an internal buffer allocation failure — in copy
construction, assignment, or `set` — the bitmap widget ends with no
buffer, buffer size 0, and `update` draws nothing; and no reachable state
combines a non-zero buffer size with a null buffer. -/
theorem C5_bitmapWidget_alloc_failure_empty (h : Heap)
    (w src : BitmapWidget) (a : Nat) (srcAddr : Option Nat)
    (width height fresh : Nat) (allocOk : Bool)
    (ha : w.bufAddr = some a) (hwfsrc : BitmapWidget.wellFormed src) :
    ((BitmapWidget.copyCtor h w fresh false).1.bufAddr = none ∧
     (BitmapWidget.copyCtor h w fresh false).1.bufferSize = 0 ∧
     BitmapWidget.update (BitmapWidget.copyCtor h w fresh false).2
       (BitmapWidget.copyCtor h w fresh false).1 = []) ∧
    ((BitmapWidget.assign h w src fresh false).1.bufferSize ≠ 0 →
      (BitmapWidget.assign h w src fresh false).1.bufAddr ≠ none) ∧
    ((BitmapWidget.set h w srcAddr width height fresh false).1.bufAddr =
        none ∧
     (BitmapWidget.set h w srcAddr width height fresh false).1.bufferSize =
        0 ∧
     BitmapWidget.update
       (BitmapWidget.set h w srcAddr width height fresh false).2
       (BitmapWidget.set h w srcAddr width height fresh false).1 = []) ∧
    BitmapWidget.wellFormed BitmapWidget.empty ∧
    BitmapWidget.wellFormed (BitmapWidget.copyCtor h w fresh allocOk).1 ∧
    BitmapWidget.wellFormed
      (BitmapWidget.set h w srcAddr width height fresh allocOk).1 := by
  refine ⟨?_, ?_, ?_, ?_, ?_, ?_⟩
  · simp [BitmapWidget.copyCtor, ha, BitmapWidget.update]
  · intro hne
    simp only [BitmapWidget.assign, BitmapWidget.copyCtor] at hne ⊢
    cases hsrc : src.bufAddr with
    | none =>
      simp only [hsrc] at hne
      exact absurd hsrc (hwfsrc hne)
    | some b =>
      simp [hsrc] at hne
  · cases srcAddr with
    | none => simp [BitmapWidget.set, BitmapWidget.update]
    | some b => simp [BitmapWidget.set, BitmapWidget.update]
  · intro hne
    simp [BitmapWidget.empty] at hne
  · simp only [BitmapWidget.copyCtor, ha]
    cases allocOk with
    | true => intro _; simp
    | false => intro hne; simp at hne
  · cases srcAddr with
    | none =>
      intro hne
      simp [BitmapWidget.set] at hne
    | some b =>
      cases allocOk with
      | true =>
        intro _
        simp [BitmapWidget.set]
      | false =>
        intro hne
        simp [BitmapWidget.set] at hne

/-- Witness for C5: copy-constructing a 2-pixel widget under allocation
failure yields a widget with no buffer, size 0, drawing nothing. -/
theorem C5_bitmapWidget_alloc_failure_empty_witness :
    ((⟨some 0, 2, 2, 1⟩ : BitmapWidget).bufAddr = some 0) ∧
    (BitmapWidget.copyCtor (fun _ => [3, 4]) ⟨some 0, 2, 2, 1⟩ 1
      false).1.bufAddr = none ∧
    (BitmapWidget.copyCtor (fun _ => [3, 4]) ⟨some 0, 2, 2, 1⟩ 1
      false).1.bufferSize = 0 ∧
    BitmapWidget.update
      (BitmapWidget.copyCtor (fun _ => [3, 4]) ⟨some 0, 2, 2, 1⟩ 1
        false).2
      (BitmapWidget.copyCtor (fun _ => [3, 4]) ⟨some 0, 2, 2, 1⟩ 1
        false).1 = [] ∧
    (BitmapWidget.set (fun _ => [3, 4]) ⟨some 0, 2, 2, 1⟩ (some 0) 2 1 1
      false).1 = BitmapWidget.empty := by
  have h := C5_bitmapWidget_alloc_failure_empty (fun _ => [3, 4])
    ⟨some 0, 2, 2, 1⟩ ⟨some 0, 2, 2, 1⟩ 0 (some 0) 2 1 1 true rfl
    (by intro _; simp)
  exact ⟨rfl, h.1.1, h.1.2.1, h.1.2.2, by decide⟩

/-! ## Request enqueue paths (src/src/Web/Pages.cpp, CaptivePortal.cpp)

The deferred request objects handed to the task decoupler are tracked by
an object identity together with allocation (`new`) and deallocation
(`delete`) bookkeeping, so that leak and double-free claims as well as the
authenticated-only-queue invariant are observable. -/

/-- An incoming `AsyncWebServerRequest`: an identity plus whether
`request->authenticate(WEB_LOGIN_USER, WEB_LOGIN_PASSWORD)` succeeds. -/
structure WebRequest where
  reqId : Nat
  authOk : Bool
deriving DecidableEq, Repr

/-- A deferred `WebReq` object sitting in the queue: the identity of the
heap object created by `new`, and the request (with its authentication
outcome) it wraps. -/
structure QueuedReq where
  objId : Nat
  request : WebRequest
deriving DecidableEq, Repr

/-- Externally visible responses issued by the handlers. -/
inductive WebAction where
  | requestAuthentication (reqId : Nat)
  | send507 (reqId : Nat)
deriving DecidableEq, Repr

/-- State threaded through Pages.cpp / CaptivePortal.cpp: the task
decoupler for deferred requests, the ids of `WebReq` objects ever created
with `new`, and the ids destroyed with `delete`. -/
structure PagesState where
  queue : TaskDecoupler QueuedReq
  allocated : List Nat
  freed : List Nat
deriving DecidableEq, Repr

/-- The deferred objects currently pending in the state's queue. -/
def queuedReqs (s : PagesState) : List QueuedReq :=
  match s.queue.hQueue with
  | none => []
  | some (_, items) => items

/-- `safeReqHandler` (Pages.cpp lines 252-285; CaptivePortal.cpp lines
172-207 is structurally identical): bail out on a null request or
handler; force authentication, requesting DIGEST authentication on
failure without touching the queue; otherwise `new` a `WebPageReq`
(`allocOk`/`newId` model the allocation) and `addItem` it; on a failed
allocation or a failed `addItem` respond 507 — in the failed-`addItem`
case the freshly allocated object is neither freed nor queued. -/
def safeReqHandler (s : PagesState) (request : WebRequest)
    (hasHandler : Bool) (allocOk : Bool) (newId : Nat) :
    PagesState × List WebAction :=
  if hasHandler = false then
    (s, [])
  else if request.authOk = false then
    (s, [WebAction.requestAuthentication request.reqId])
  else if allocOk = false then
    (s, [WebAction.send507 request.reqId])
  else
    let s1 : PagesState :=
      ⟨s.queue, s.allocated ++ [newId], s.freed⟩
    let p := s1.queue.addItem ⟨newId, request⟩
    if p.2 then
      (⟨p.1, s1.allocated, s1.freed⟩, [])
    else
      (⟨p.1, s1.allocated, s1.freed⟩, [WebAction.send507 request.reqId])

/-- `safeUploadHandler` (Pages.cpp lines 299-332): identical control flow
to `safeReqHandler`, allocating a `WebUploadReq` instead (the payload copy
itself is modelled by `WebUploadReq.construct`). -/
def safeUploadHandler (s : PagesState) (request : WebRequest)
    (_filename : List Char) (_index : Nat) (_len : Nat) (_isFinal : Bool)
    (hasUploadHandler : Bool) (allocOk : Bool) (newId : Nat) :
    PagesState × List WebAction :=
  if hasUploadHandler = false then
    (s, [])
  else if request.authOk = false then
    (s, [WebAction.requestAuthentication request.reqId])
  else if allocOk = false then
    (s, [WebAction.send507 request.reqId])
  else
    let s1 : PagesState :=
      ⟨s.queue, s.allocated ++ [newId], s.freed⟩
    let p := s1.queue.addItem ⟨newId, request⟩
    if p.2 then
      (⟨p.1, s1.allocated, s1.freed⟩, [])
    else
      (⟨p.1, s1.allocated, s1.freed⟩, [WebAction.send507 request.reqId])

/-- `Pages::process` (Pages.cpp lines 210-224; CaptivePortal.cpp lines
117-131 identical): dequeue one deferred request; when one arrives, run
`msg->call()` and `delete msg`. -/
def pagesProcess (s : PagesState) : PagesState :=
  let p := s.queue.getItem
  match p.2.2 with
  | some msg => ⟨p.1, s.allocated, s.freed ++ [msg.objId]⟩
  | none => ⟨p.1, s.allocated, s.freed⟩

/-- Iterate `pagesProcess`. -/
def pagesProcessN : Nat → PagesState → PagesState
  | 0, s => s
  | n + 1, s => pagesProcessN n (pagesProcess s)

/-- A deferred object is leaked when it was allocated, never freed, and is
no longer reachable from the queue. -/
def leaked (s : PagesState) (objId : Nat) : Prop :=
  objId ∈ s.allocated ∧ objId ∉ s.freed ∧
    ∀ q ∈ queuedReqs s, q.objId ≠ objId

/-- Claim C3 fails on the code: with the 20-slot Pages queue full, an
authenticated request's `WebPageReq` is allocated, `addItem` fails, the
handler answers 507 — and the object is never `delete`d: it is leaked,
and stays unfreed even after the queue is fully drained.  (A dequeued
request is freed after its handler runs; only the failed-enqueue path
violates the claim.) -/
theorem C3_enqueue_failure_leaks :
    (safeReqHandler
      ⟨⟨some (20, (List.range 20).map (fun i => ⟨i, ⟨i, true⟩⟩))⟩,
        List.range 20, []⟩
      ⟨55, true⟩ true true 100).2 = [WebAction.send507 55] ∧
    leaked
      (safeReqHandler
        ⟨⟨some (20, (List.range 20).map (fun i => ⟨i, ⟨i, true⟩⟩))⟩,
          List.range 20, []⟩
        ⟨55, true⟩ true true 100).1 100 ∧
    (100 ∉ (pagesProcessN 25
      (safeReqHandler
        ⟨⟨some (20, (List.range 20).map (fun i => ⟨i, ⟨i, true⟩⟩))⟩,
          List.range 20, []⟩
        ⟨55, true⟩ true true 100).1).freed) ∧
    (100 ∈ (pagesProcessN 25
      (safeReqHandler
        ⟨⟨some (20, (List.range 20).map (fun i => ⟨i, ⟨i, true⟩⟩))⟩,
          List.range 20, []⟩
        ⟨55, true⟩ true true 100).1).allocated) := by
  refine ⟨by decide, ⟨by decide, by decide, ?_⟩, by decide, by decide⟩
  decide

/-- One producer/consumer event against the deferred-request machinery. -/
inductive PagesEvent where
  | page (request : WebRequest) (hasHandler allocOk : Bool) (newId : Nat)
  | upload (request : WebRequest) (filename : List Char)
      (index len : Nat) (isFinal : Bool) (hasUploadHandler allocOk : Bool)
      (newId : Nat)
  | drain
deriving DecidableEq, Repr

/-- Run a sequence of handler invocations and `process` calls. -/
def runPagesEvents (s : PagesState) : List PagesEvent → PagesState
  | [] => s
  | PagesEvent.page request hasHandler allocOk newId :: rest =>
    runPagesEvents (safeReqHandler s request hasHandler allocOk newId).1
      rest
  | PagesEvent.upload request filename index len isFinal hasUploadHandler
      allocOk newId :: rest =>
    runPagesEvents
      (safeUploadHandler s request filename index len isFinal
        hasUploadHandler allocOk newId).1 rest
  | PagesEvent.drain :: rest =>
    runPagesEvents (pagesProcess s) rest

/-- Every deferred object in the queue wraps an authenticated request. -/
def authInvariant (s : PagesState) : Prop :=
  ∀ q ∈ queuedReqs s, q.request.authOk = true

theorem addItem_mem_queuedReqs (s : PagesState) (q : QueuedReq)
    (r : QueuedReq) (hq : r ∈ queuedReqs ⟨(s.queue.addItem q).1,
      s.allocated ++ [q.objId], s.freed⟩) :
    r ∈ queuedReqs s ∨ r = q := by
  cases hstate : s.queue.hQueue with
  | none =>
    simp only [queuedReqs, TaskDecoupler.addItem, hstate] at hq
    simp at hq
  | some pair =>
    obtain ⟨cap, items⟩ := pair
    simp only [queuedReqs, TaskDecoupler.addItem, hstate] at hq
    by_cases hlt : items.length < cap
    · simp only [hlt, if_true] at hq
      simp only [queuedReqs, hstate]
      rcases List.mem_append.mp hq with hin | hone
      · exact Or.inl hin
      · exact Or.inr (by simpa using hone)
    · simp only [hlt, if_false] at hq
      simp only [queuedReqs, hstate]
      exact Or.inl hq

theorem safeReqHandler_authInvariant (s : PagesState)
    (request : WebRequest) (hasHandler allocOk : Bool) (newId : Nat)
    (hinv : authInvariant s) :
    authInvariant (safeReqHandler s request hasHandler allocOk newId).1 := by
  by_cases hh : hasHandler = false
  · simpa [safeReqHandler, hh] using hinv
  · by_cases hauth : request.authOk = false
    · simpa [safeReqHandler, hh, hauth] using hinv
    · by_cases halloc : allocOk = false
      · simpa [safeReqHandler, hh, hauth, halloc] using hinv
      · intro q hq
        simp only [safeReqHandler, hh, hauth, halloc, if_false] at hq
        have hq2 : q ∈ queuedReqs ⟨(s.queue.addItem ⟨newId, request⟩).1,
            s.allocated ++ [newId], s.freed⟩ := by
          by_cases hsucc : (s.queue.addItem ⟨newId, request⟩).2
          · simpa [hsucc] using hq
          · simp only [Bool.not_eq_true] at hsucc
            simpa [hsucc] using hq
        rcases addItem_mem_queuedReqs s ⟨newId, request⟩ q hq2 with
          hin | hone
        · exact hinv q hin
        · subst hone
          simpa using Bool.not_eq_false _ |>.mp hauth

theorem safeUploadHandler_eq_safeReqHandler (s : PagesState)
    (request : WebRequest) (filename : List Char) (index len : Nat)
    (isFinal : Bool) (hasUploadHandler allocOk : Bool) (newId : Nat) :
    safeUploadHandler s request filename index len isFinal
      hasUploadHandler allocOk newId =
      safeReqHandler s request hasUploadHandler allocOk newId := rfl

theorem pagesProcess_authInvariant (s : PagesState)
    (hinv : authInvariant s) : authInvariant (pagesProcess s) := by
  intro q hq
  apply hinv
  cases hstate : s.queue.hQueue with
  | none =>
    simp only [pagesProcess, TaskDecoupler.getItem, hstate,
      queuedReqs] at hq
    simp at hq
  | some pair =>
    obtain ⟨cap, items⟩ := pair
    cases items with
    | nil =>
      simp only [pagesProcess, TaskDecoupler.getItem, hstate,
        queuedReqs] at hq
      simp at hq
    | cons x xs =>
      simp only [pagesProcess, TaskDecoupler.getItem, hstate,
        queuedReqs] at hq
      simp only [queuedReqs, hstate]
      exact List.mem_cons_of_mem x hq

/-- Claim C10: on the page, upload and captive-portal paths a deferred
request object is constructed and enqueued only after the request passes
authentication; when authentication fails, the handler requests DIGEST
authentication and the queue and bookkeeping state are unchanged; hence
along any trace of handler invocations and drains from a state whose
queue holds only authenticated requests, every request ever present in
the queue is authenticated. -/
theorem C10_only_authenticated_queued (s : PagesState)
    (request : WebRequest) (newId : Nat) (allocOk : Bool)
    (filename : List Char) (index len : Nat) (isFinal : Bool)
    (events : List PagesEvent)
    (hauth : request.authOk = false) (hinv : authInvariant s) :
    safeReqHandler s request true allocOk newId =
      (s, [WebAction.requestAuthentication request.reqId]) ∧
    safeUploadHandler s request filename index len isFinal true allocOk
      newId = (s, [WebAction.requestAuthentication request.reqId]) ∧
    authInvariant (runPagesEvents s events) := by
  refine ⟨by simp [safeReqHandler, hauth], ?_, ?_⟩
  · rw [safeUploadHandler_eq_safeReqHandler]
    simp [safeReqHandler, hauth]
  · induction events generalizing s with
    | nil => exact hinv
    | cons ev rest ih =>
      cases ev with
      | page req hh ak id =>
        exact ih _ (safeReqHandler_authInvariant s req hh ak id hinv)
      | upload req fn ix ln fin hh ak id =>
        rw [runPagesEvents, safeUploadHandler_eq_safeReqHandler]
        exact ih _ (safeReqHandler_authInvariant s req hh ak id hinv)
      | drain =>
        exact ih _ (pagesProcess_authInvariant s hinv)

/-- Witness for C10: an unauthenticated request against an empty 5-slot
captive-portal queue only triggers an authentication challenge, and a
mixed trace keeps the queue authenticated-only. -/
theorem C10_only_authenticated_queued_witness :
    safeReqHandler ⟨⟨some (5, [])⟩, [], []⟩ ⟨9, false⟩ true true 0 =
      (⟨⟨some (5, [])⟩, [], []⟩, [WebAction.requestAuthentication 9]) ∧
    safeUploadHandler ⟨⟨some (5, [])⟩, [], []⟩ ⟨9, false⟩ [] 0 4 true
      true true 0 =
      (⟨⟨some (5, [])⟩, [], []⟩, [WebAction.requestAuthentication 9]) ∧
    authInvariant (runPagesEvents ⟨⟨some (5, [])⟩, [], []⟩
      [PagesEvent.page ⟨1, true⟩ true true 10,
       PagesEvent.page ⟨2, false⟩ true true 11,
       PagesEvent.drain]) :=
  C10_only_authenticated_queued ⟨⟨some (5, [])⟩, [], []⟩ ⟨9, false⟩ 0
    true [] 0 4 true
    [PagesEvent.page ⟨1, true⟩ true true 10,
     PagesEvent.page ⟨2, false⟩ true true 11,
     PagesEvent.drain]
    rfl (by intro q hq; simp [queuedReqs] at hq)

/-! ## Hostname validation (Pages.cpp lines 342-398)

Strings are character lists.  The C loop counter is a `uint8_t`; it is
modelled as an unbounded `Nat`, which coincides with the code whenever the
string is at most 255 characters long — guaranteed upstream by the
max-length check as long as the configured maximum is at most 255 (the
hostname setting follows RFC952). -/

/-- The character-scan loop of `isValidHostname`: digits and dashes are
rejected at index 0, letters are accepted anywhere, anything else is
rejected. -/
def hostnameCharsValid : Nat → List Char → Bool
  | _, [] => true
  | index, c :: rest =>
    if '0' ≤ c ∧ c ≤ '9' then
      if index = 0 then false else hostnameCharsValid (index + 1) rest
    else if 'A' ≤ c ∧ c ≤ 'Z' then
      hostnameCharsValid (index + 1) rest
    else if 'a' ≤ c ∧ c ≤ 'z' then
      hostnameCharsValid (index + 1) rest
    else if c = '-' then
      if index = 0 then false else hostnameCharsValid (index + 1) rest
    else
      false

/-- `isValidHostname` (Pages.cpp lines 342-398), parameterized by the
configured minimum and maximum hostname lengths (retrieved from the
external `Settings` singleton in the C code). -/
def isValidHostname (minLen maxLen : Nat) (hostname : List Char) : Bool :=
  if minLen > hostname.length ∨ maxLen < hostname.length then
    false
  else
    hostnameCharsValid 0 hostname

/-- A character admissible anywhere in a hostname. -/
def hostChar (c : Char) : Prop :=
  ('0' ≤ c ∧ c ≤ '9') ∨ ('A' ≤ c ∧ c ≤ 'Z') ∨ ('a' ≤ c ∧ c ≤ 'z') ∨
    c = '-'

instance (c : Char) : Decidable (hostChar c) := by
  unfold hostChar
  infer_instance

theorem hostnameCharsValid_pos :
    ∀ (l : List Char) (index : Nat), index ≠ 0 →
      (hostnameCharsValid index l = true ↔ ∀ c ∈ l, hostChar c) := by
  intro l
  induction l with
  | nil =>
    intro index _
    simp [hostnameCharsValid]
  | cons c rest ih =>
    intro index hidx
    by_cases h1 : '0' ≤ c ∧ c ≤ '9'
    · rw [show hostnameCharsValid index (c :: rest) =
          hostnameCharsValid (index + 1) rest by
        simp [hostnameCharsValid, h1, hidx]]
      rw [ih (index + 1) (Nat.succ_ne_zero index)]
      simp [hostChar, h1]
    · by_cases h2 : 'A' ≤ c ∧ c ≤ 'Z'
      · rw [show hostnameCharsValid index (c :: rest) =
            hostnameCharsValid (index + 1) rest by
          simp [hostnameCharsValid, h1, h2]]
        rw [ih (index + 1) (Nat.succ_ne_zero index)]
        simp [hostChar, h2]
      · by_cases h3 : 'a' ≤ c ∧ c ≤ 'z'
        · rw [show hostnameCharsValid index (c :: rest) =
              hostnameCharsValid (index + 1) rest by
            simp [hostnameCharsValid, h1, h2, h3]]
          rw [ih (index + 1) (Nat.succ_ne_zero index)]
          simp [hostChar, h3]
        · by_cases h4 : c = '-'
          · rw [show hostnameCharsValid index (c :: rest) =
                hostnameCharsValid (index + 1) rest by
              simp [hostnameCharsValid, h1, h2, h3, h4, hidx]]
            rw [ih (index + 1) (Nat.succ_ne_zero index)]
            simp [hostChar, h4]
          · rw [show hostnameCharsValid index (c :: rest) = false by
              simp [hostnameCharsValid, h1, h2, h3, h4]]
            refine iff_of_false (by simp) ?_
            intro hall
            rcases hall c (List.mem_cons_self c rest) with
              hc | hc | hc | hc
            · exact h1 hc
            · exact h2 hc
            · exact h3 hc
            · exact h4 hc

theorem hostnameCharsValid_zero (l : List Char) :
    hostnameCharsValid 0 l = true ↔
      (∀ c ∈ l, hostChar c) ∧
      (∀ c, l.head? = some c → ¬ (('0' ≤ c ∧ c ≤ '9') ∨ c = '-')) := by
  cases l with
  | nil => simp [hostnameCharsValid]
  | cons c rest =>
    by_cases h1 : '0' ≤ c ∧ c ≤ '9'
    · rw [show hostnameCharsValid 0 (c :: rest) = false by
        simp [hostnameCharsValid, h1]]
      refine iff_of_false (by simp) ?_
      intro ⟨_, hhead⟩
      exact absurd (Or.inl h1) (hhead c rfl)
    · by_cases h4 : c = '-'
      · by_cases h2 : 'A' ≤ c ∧ c ≤ 'Z'
        · exact absurd h2 (by subst h4; decide)
        · by_cases h3 : 'a' ≤ c ∧ c ≤ 'z'
          · exact absurd h3 (by subst h4; decide)
          · rw [show hostnameCharsValid 0 (c :: rest) = false by
              simp [hostnameCharsValid, h1, h2, h3, h4]]
            refine iff_of_false (by simp) ?_
            intro ⟨_, hhead⟩
            exact absurd (Or.inr h4) (hhead c rfl)
      · constructor
        · intro hval
          have hrec : hostnameCharsValid 1 rest = true := by
            by_cases h2 : 'A' ≤ c ∧ c ≤ 'Z'
            · simpa [hostnameCharsValid, h1, h2] using hval
            · by_cases h3 : 'a' ≤ c ∧ c ≤ 'z'
              · simpa [hostnameCharsValid, h1, h2, h3] using hval
              · simp [hostnameCharsValid, h1, h2, h3, h4] at hval
          have hc : hostChar c := by
            by_cases h2 : 'A' ≤ c ∧ c ≤ 'Z'
            · exact Or.inr (Or.inl h2)
            · by_cases h3 : 'a' ≤ c ∧ c ≤ 'z'
              · exact Or.inr (Or.inr (Or.inl h3))
              · simp [hostnameCharsValid, h1, h2, h3, h4] at hval
          refine ⟨?_, ?_⟩
          · intro d hd
            rcases List.mem_cons.mp hd with hdc | hdr
            · exact hdc ▸ hc
            · exact (hostnameCharsValid_pos rest 1 one_ne_zero).mp
                hrec d hdr
          · intro d hd
            have hdc : c = d := by simpa using hd
            subst hdc
            intro hbad
            rcases hbad with hbad | hbad
            · exact h1 hbad
            · exact h4 hbad
        · intro ⟨hall, _⟩
          have hc : hostChar c := hall c (List.mem_cons_self c rest)
          have hrest : hostnameCharsValid 1 rest = true :=
            (hostnameCharsValid_pos rest 1 one_ne_zero).mpr
              (fun d hd => hall d (List.mem_cons_of_mem c hd))
          rcases hc with hc | hc | hc | hc
          · exact absurd hc h1
          · simpa [hostnameCharsValid, h1, hc] using hrest
          · by_cases h2 : 'A' ≤ c ∧ c ≤ 'Z'
            · simpa [hostnameCharsValid, h1, h2] using hrest
            · simpa [hostnameCharsValid, h1, h2, hc] using hrest
          · exact absurd hc h4

/-- Claim C7: `isValidHostname` returns `true` iff the length is within
the configured bounds, every character is an ASCII letter, an ASCII digit
or a dash, and the first character is neither a digit nor a dash.  Totality
of the definition reflects crash-freedom; the `maxLen ≤ 255` bound is the
regime in which the `uint8_t` loop counter of the C code cannot wrap. -/
theorem C7_isValidHostname_spec (minLen maxLen : Nat)
    (hostname : List Char) (hmax : maxLen ≤ 255) :
    isValidHostname minLen maxLen hostname = true ↔
      (minLen ≤ hostname.length ∧ hostname.length ≤ maxLen ∧
       (∀ c ∈ hostname, hostChar c) ∧
       (∀ c, hostname.head? = some c →
         ¬ (('0' ≤ c ∧ c ≤ '9') ∨ c = '-'))) := by
  unfold isValidHostname
  by_cases hbound : minLen > hostname.length ∨ maxLen < hostname.length
  · rw [if_pos hbound]
    refine iff_of_false (by simp) ?_
    intro ⟨hmin, hmaxl, _, _⟩
    rcases hbound with hb | hb
    · omega
    · omega
  · rw [if_neg hbound, hostnameCharsValid_zero]
    push_neg at hbound
    constructor
    · intro ⟨hall, hhead⟩
      exact ⟨hbound.1, hbound.2, hall, hhead⟩
    · intro ⟨_, _, hall, hhead⟩
      exact ⟨hall, hhead⟩

/-- Witness for C7 on the hostname `ab-3` with bounds 1..63: valid, and
each property of the characterization holds. -/
theorem C7_isValidHostname_spec_witness :
    (63 : Nat) ≤ 255 ∧
    (isValidHostname 1 63 ['a', 'b', '-', '3'] = true ↔
      (1 ≤ (['a', 'b', '-', '3'] : List Char).length ∧
       (['a', 'b', '-', '3'] : List Char).length ≤ 63 ∧
       (∀ c ∈ (['a', 'b', '-', '3'] : List Char), hostChar c) ∧
       (∀ c, (['a', 'b', '-', '3'] : List Char).head? = some c →
         ¬ (('0' ≤ c ∧ c ≤ '9') ∨ c = '-')))) :=
  ⟨by decide, C7_isValidHostname_spec 1 63 ['a', 'b', '-', '3'] (by decide)⟩

/-! ## storeSetting (Pages.cpp lines 490-696)

The external `Settings` key/value classes are modelled as an inductive of
the parameter kinds with their validation data and current stored value;
the external `Util::strToUInt8` / `Util::strToInt32` conversions are
universally quantified functions returning `none` on a failed conversion.
The hostname bounds come from the external `Settings` singleton and are
passed as parameters. -/

/-- A `KeyValue` parameter: kind, validation bounds, stored value.
`isHostnameKey` models `0 == strcmp(hostnameKey, kvStr->getKey())`. -/
inductive KeyValue where
  | str (isHostnameKey : Bool) (minLen maxLen : Nat) (value : List Char)
  | boolean (value : Bool)
  | uint8 (mn mx : Nat) (value : Nat)
  | int32 (mn mx : Int) (value : Int)
  | json (minLen maxLen : Nat) (value : List Char)
  | unknown
deriving DecidableEq, Repr

/-- The error messages `storeSetting` writes into `jsonDoc["error"]`. -/
inductive ErrMsg where
  | internalError
  | invalidHostname
  | strLenLower (bound : Nat)
  | strLenGreater (bound : Nat)
  | invalidValue
  | u8Lower (bound : Nat)
  | u8Greater (bound : Nat)
  | i32Lower (bound : Int)
  | i32Greater (bound : Int)
  | jsonLenLower (bound : Nat)
  | jsonLenGreater (bound : Nat)
  | unknownParameter
deriving DecidableEq, Repr

/-- The parts of the JSON response document `storeSetting` touches. -/
structure JsonDoc where
  status : Option Nat
  error : Option ErrMsg
deriving DecidableEq, Repr

/-- The C string literal `"true"`. -/
def trueLit : List Char := ['t', 'r', 'u', 'e']

/-- The C string literal `"false"`. -/
def falseLit : List Char := ['f', 'a', 'l', 's', 'e']

/-- `storeSetting` (Pages.cpp lines 490-696): validates `value` against
the parameter's kind and bounds; on failure returns `false`, leaves the
parameter unchanged and writes `status = 1` plus an error message into the
document; on success calls `setValue` and returns `true`. -/
def storeSetting (strToUInt8 : List Char → Option Nat)
    (strToInt32 : List Char → Option Int) (hostMin hostMax : Nat)
    (parameter : KeyValue) (value : List Char) (jsonDoc : JsonDoc) :
    Bool × KeyValue × JsonDoc :=
  match parameter with
  | KeyValue.str isHost minLen maxLen old =>
    if isHost ∧ isValidHostname hostMin hostMax value = false then
      (false, KeyValue.str isHost minLen maxLen old,
        ⟨some 1, some ErrMsg.invalidHostname⟩)
    else if value.length < minLen then
      (false, KeyValue.str isHost minLen maxLen old,
        ⟨some 1, some (ErrMsg.strLenLower minLen)⟩)
    else if maxLen < value.length then
      (false, KeyValue.str isHost minLen maxLen old,
        ⟨some 1, some (ErrMsg.strLenGreater maxLen)⟩)
    else
      (true, KeyValue.str isHost minLen maxLen value, jsonDoc)
  | KeyValue.boolean old =>
    if value = falseLit then
      (true, KeyValue.boolean false, jsonDoc)
    else if value = trueLit then
      (true, KeyValue.boolean true, jsonDoc)
    else
      (false, KeyValue.boolean old, ⟨some 1, some ErrMsg.invalidValue⟩)
  | KeyValue.uint8 mn mx old =>
    match strToUInt8 value with
    | none =>
      (false, KeyValue.uint8 mn mx old, ⟨some 1, some ErrMsg.invalidValue⟩)
    | some v =>
      if v < mn then
        (false, KeyValue.uint8 mn mx old, ⟨some 1, some (ErrMsg.u8Lower mn)⟩)
      else if mx < v then
        (false, KeyValue.uint8 mn mx old,
          ⟨some 1, some (ErrMsg.u8Greater mx)⟩)
      else
        (true, KeyValue.uint8 mn mx v, jsonDoc)
  | KeyValue.int32 mn mx old =>
    match strToInt32 value with
    | none =>
      (false, KeyValue.int32 mn mx old, ⟨some 1, some ErrMsg.invalidValue⟩)
    | some v =>
      if v < mn then
        (false, KeyValue.int32 mn mx old,
          ⟨some 1, some (ErrMsg.i32Lower mn)⟩)
      else if mx < v then
        (false, KeyValue.int32 mn mx old,
          ⟨some 1, some (ErrMsg.i32Greater mx)⟩)
      else
        (true, KeyValue.int32 mn mx v, jsonDoc)
  | KeyValue.json minLen maxLen old =>
    if value.length < minLen then
      (false, KeyValue.json minLen maxLen old,
        ⟨some 1, some (ErrMsg.jsonLenLower minLen)⟩)
    else if maxLen < value.length then
      (false, KeyValue.json minLen maxLen old,
        ⟨some 1, some (ErrMsg.jsonLenGreater maxLen)⟩)
    else
      (true, KeyValue.json minLen maxLen value, jsonDoc)
  | KeyValue.unknown =>
    (false, KeyValue.unknown, ⟨some 1, some ErrMsg.unknownParameter⟩)

/-- The claim's list of invalid submissions: string/JSON length outside
the bounds, unparseable or out-of-range number, unrecognized boolean
literal, invalid hostname, or unknown parameter type. -/
def settingInvalid (strToUInt8 : List Char → Option Nat)
    (strToInt32 : List Char → Option Int) (hostMin hostMax : Nat)
    (parameter : KeyValue) (value : List Char) : Prop :=
  match parameter with
  | KeyValue.str isHost minLen maxLen _ =>
    (isHost = true ∧ isValidHostname hostMin hostMax value = false) ∨
      value.length < minLen ∨ maxLen < value.length
  | KeyValue.boolean _ => value ≠ falseLit ∧ value ≠ trueLit
  | KeyValue.uint8 mn mx _ =>
    match strToUInt8 value with
    | none => True
    | some v => v < mn ∨ mx < v
  | KeyValue.int32 mn mx _ =>
    match strToInt32 value with
    | none => True
    | some v => v < mn ∨ mx < v
  | KeyValue.json minLen maxLen _ =>
    value.length < minLen ∨ maxLen < value.length
  | KeyValue.unknown => True

/-- The stored parameter a valid submission produces. -/
def storedSetting (strToUInt8 : List Char → Option Nat)
    (strToInt32 : List Char → Option Int) (parameter : KeyValue)
    (value : List Char) : KeyValue :=
  match parameter with
  | KeyValue.str isHost minLen maxLen _ =>
    KeyValue.str isHost minLen maxLen value
  | KeyValue.boolean _ => KeyValue.boolean (decide (value = trueLit))
  | KeyValue.uint8 mn mx old =>
    KeyValue.uint8 mn mx ((strToUInt8 value).getD old)
  | KeyValue.int32 mn mx old =>
    KeyValue.int32 mn mx ((strToInt32 value).getD old)
  | KeyValue.json minLen maxLen _ => KeyValue.json minLen maxLen value
  | KeyValue.unknown => KeyValue.unknown

/-- Claim C6: `storeSetting` returns `false` and leaves the stored value
unchanged exactly on invalid submissions, writing a structured error
(status flag plus error message) into the JSON response document in every
such case; otherwise it stores the submitted value and returns `true`
without touching the document. -/
theorem C6_storeSetting_validation (strToUInt8 : List Char → Option Nat)
    (strToInt32 : List Char → Option Int) (hostMin hostMax : Nat)
    (parameter : KeyValue) (value : List Char) (jsonDoc : JsonDoc) :
    (settingInvalid strToUInt8 strToInt32 hostMin hostMax parameter
        value →
      (storeSetting strToUInt8 strToInt32 hostMin hostMax parameter value
          jsonDoc).1 = false ∧
      (storeSetting strToUInt8 strToInt32 hostMin hostMax parameter value
          jsonDoc).2.1 = parameter ∧
      (storeSetting strToUInt8 strToInt32 hostMin hostMax parameter value
          jsonDoc).2.2.status = some 1 ∧
      (storeSetting strToUInt8 strToInt32 hostMin hostMax parameter value
          jsonDoc).2.2.error ≠ none) ∧
    (¬ settingInvalid strToUInt8 strToInt32 hostMin hostMax parameter
        value →
      (storeSetting strToUInt8 strToInt32 hostMin hostMax parameter value
          jsonDoc).1 = true ∧
      (storeSetting strToUInt8 strToInt32 hostMin hostMax parameter value
          jsonDoc).2.1 =
        storedSetting strToUInt8 strToInt32 parameter value ∧
      (storeSetting strToUInt8 strToInt32 hostMin hostMax parameter value
          jsonDoc).2.2 = jsonDoc) := by
  cases parameter with
  | str isHost minLen maxLen old =>
    constructor
    · intro hinv
      simp only [settingInvalid] at hinv
      by_cases hhost : isHost ∧ isValidHostname hostMin hostMax value =
          false
      · refine ⟨?_, ?_, ?_, ?_⟩ <;>
          simp [storeSetting, hhost]
      · have hlen : value.length < minLen ∨ maxLen < value.length := by
          rcases hinv with hh | hl
          · exact absurd ⟨hh.1, hh.2⟩ hhost
          · exact hl
        by_cases hlow : value.length < minLen
        · refine ⟨?_, ?_, ?_, ?_⟩ <;>
            simp [storeSetting, hhost, hlow]
        · have hhigh : maxLen < value.length := by
            rcases hlen with hl | hl
            · exact absurd hl hlow
            · exact hl
          refine ⟨?_, ?_, ?_, ?_⟩ <;>
            simp [storeSetting, hhost, hlow, hhigh]
    · intro hval
      simp only [settingInvalid] at hval
      push_neg at hval
      obtain ⟨hhostimp, hlow, hhigh⟩ := hval
      have hhost2 : ¬ (isHost = true ∧
          isValidHostname hostMin hostMax value = false) := by
        intro hh
        exact absurd hh.2 (hhostimp hh.1)
      refine ⟨?_, ?_, ?_⟩ <;>
        simp [storeSetting, storedSetting, hhost2, Nat.not_lt.mpr hlow,
          Nat.not_lt.mpr hhigh]
  | boolean old =>
    constructor
    · intro hinv
      obtain ⟨hf, ht⟩ := hinv
      refine ⟨?_, ?_, ?_, ?_⟩ <;> simp [storeSetting, hf, ht]
    · intro hval
      simp only [settingInvalid, not_and_or, not_not] at hval
      by_cases hf : value = falseLit
      · subst hf
        exact ⟨rfl, rfl, rfl⟩
      · have ht : value = trueLit := by
          rcases hval with hv | hv
          · exact absurd hv hf
          · exact hv
        subst ht
        exact ⟨rfl, rfl, rfl⟩
  | uint8 mn mx old =>
    cases hconv : strToUInt8 value with
    | none =>
      constructor
      · intro _
        refine ⟨?_, ?_, ?_, ?_⟩ <;> simp [storeSetting, hconv]
      · intro hval
        exact absurd (by simp [settingInvalid, hconv]) hval
    | some v =>
      constructor
      · intro hinv
        simp only [settingInvalid, hconv] at hinv
        by_cases hlow : v < mn
        · refine ⟨?_, ?_, ?_, ?_⟩ <;> simp [storeSetting, hconv, hlow]
        · have hhigh : mx < v := by
            rcases hinv with hl | hl
            · exact absurd hl hlow
            · exact hl
          refine ⟨?_, ?_, ?_, ?_⟩ <;>
            simp [storeSetting, hconv, hlow, hhigh]
      · intro hval
        simp only [settingInvalid, hconv, not_or, not_lt] at hval
        obtain ⟨hlow, hhigh⟩ := hval
        refine ⟨?_, ?_, ?_⟩ <;>
          simp [storeSetting, storedSetting, hconv, Nat.not_lt.mpr hlow,
            Nat.not_lt.mpr hhigh]
  | int32 mn mx old =>
    cases hconv : strToInt32 value with
    | none =>
      constructor
      · intro _
        refine ⟨?_, ?_, ?_, ?_⟩ <;> simp [storeSetting, hconv]
      · intro hval
        exact absurd (by simp [settingInvalid, hconv]) hval
    | some v =>
      constructor
      · intro hinv
        simp only [settingInvalid, hconv] at hinv
        by_cases hlow : v < mn
        · refine ⟨?_, ?_, ?_, ?_⟩ <;> simp [storeSetting, hconv, hlow]
        · have hhigh : mx < v := by
            rcases hinv with hl | hl
            · exact absurd hl hlow
            · exact hl
          refine ⟨?_, ?_, ?_, ?_⟩ <;>
            simp [storeSetting, hconv, hlow, hhigh]
      · intro hval
        simp only [settingInvalid, hconv, not_or, not_lt] at hval
        obtain ⟨hlow, hhigh⟩ := hval
        refine ⟨?_, ?_, ?_⟩ <;>
          simp [storeSetting, storedSetting, hconv, not_lt.mpr hlow,
            not_lt.mpr hhigh]
  | json minLen maxLen old =>
    constructor
    · intro hinv
      simp only [settingInvalid] at hinv
      by_cases hlow : value.length < minLen
      · refine ⟨?_, ?_, ?_, ?_⟩ <;> simp [storeSetting, hlow]
      · have hhigh : maxLen < value.length := by
          rcases hinv with hl | hl
          · exact absurd hl hlow
          · exact hl
        refine ⟨?_, ?_, ?_, ?_⟩ <;> simp [storeSetting, hlow, hhigh]
    · intro hval
      simp only [settingInvalid, not_or, not_lt] at hval
      obtain ⟨hlow, hhigh⟩ := hval
      refine ⟨?_, ?_, ?_⟩ <;>
        simp [storeSetting, storedSetting, Nat.not_lt.mpr hlow,
          Nat.not_lt.mpr hhigh]
  | unknown =>
    constructor
    · intro _
      refine ⟨?_, ?_, ?_, ?_⟩ <;> simp [storeSetting]
    · intro hval
      exact absurd trivial hval

/-- Witness for C6: submitting `200` for a uint8 parameter bounded by
1..30 is rejected without changing the stored value, and the response
document carries status 1 and an error; submitting `25` succeeds. -/
theorem C6_storeSetting_validation_witness :
    settingInvalid (fun _ => some 200) (fun _ => none) 1 63
      (KeyValue.uint8 1 30 5) ['2', '0', '0'] ∧
    ((storeSetting (fun _ => some 200) (fun _ => none) 1 63
        (KeyValue.uint8 1 30 5) ['2', '0', '0'] ⟨none, none⟩).1 = false ∧
     (storeSetting (fun _ => some 200) (fun _ => none) 1 63
        (KeyValue.uint8 1 30 5) ['2', '0', '0'] ⟨none, none⟩).2.1 =
       KeyValue.uint8 1 30 5 ∧
     (storeSetting (fun _ => some 200) (fun _ => none) 1 63
        (KeyValue.uint8 1 30 5) ['2', '0', '0']
        ⟨none, none⟩).2.2.status = some 1 ∧
     (storeSetting (fun _ => some 200) (fun _ => none) 1 63
        (KeyValue.uint8 1 30 5) ['2', '0', '0']
        ⟨none, none⟩).2.2.error ≠ none) ∧
    ¬ settingInvalid (fun _ => some 25) (fun _ => none) 1 63
      (KeyValue.uint8 1 30 5) ['2', '5'] ∧
    ((storeSetting (fun _ => some 25) (fun _ => none) 1 63
        (KeyValue.uint8 1 30 5) ['2', '5'] ⟨none, none⟩).1 = true ∧
     (storeSetting (fun _ => some 25) (fun _ => none) 1 63
        (KeyValue.uint8 1 30 5) ['2', '5'] ⟨none, none⟩).2.1 =
       storedSetting (fun _ => some 25) (fun _ => none)
         (KeyValue.uint8 1 30 5) ['2', '5'] ∧
     (storeSetting (fun _ => some 25) (fun _ => none) 1 63
        (KeyValue.uint8 1 30 5) ['2', '5'] ⟨none, none⟩).2.2 =
       ⟨none, none⟩) := by
  refine ⟨?_, ?_, ?_, ?_⟩
  · simp [settingInvalid]
  · exact (C6_storeSetting_validation (fun _ => some 200) (fun _ => none)
      1 63 (KeyValue.uint8 1 30 5) ['2', '0', '0'] ⟨none, none⟩).1
      (by simp [settingInvalid])
  · simp [settingInvalid]
  · exact (C6_storeSetting_validation (fun _ => some 25) (fun _ => none)
      1 63 (KeyValue.uint8 1 30 5) ['2', '5'] ⟨none, none⟩).2
      (by simp [settingInvalid])

end LedMatrix
